import Mathlib

/-!
Verification of the catty-cli remote-terminal client against its
natural-language specification.

The development shallowly embeds the TypeScript sources:

* `src/commands/connect.ts`  — the reconnect supervisor loop
* `src/lib/terminal.ts`      — raw-mode terminal controller
* `src/protocol/messages.ts` — the JSON control-message codec
* `src/lib/websocket.ts`     — session relay: outcome delivery,
                               paste demultiplexer, Ctrl+C handling,
                               chunked file upload
* `src/lib/syncback.ts`      — sync-back writer (path validation,
                               atomic write)
* `src/lib/file-upload.ts`   — upload eligibility and chunk size

Pure functions become Lean functions; event-driven code becomes explicit
state passing (a step function over a state record, folded over a list of
events).  The ambient Node/JS runtime facilities (the `ws` WebSocket
library, fs syscalls, `JSON.parse`/`JSON.stringify`, timers) are modelled
as explicit inputs, abstract state, or trusted bijections, as noted at
each definition.
-/

namespace Catty

/-! ## Connection outcomes (src/lib/websocket.ts, ConnectionResult) -/

/-- The outcome of one connection attempt, mirroring the TypeScript
union `ConnectionResult` in src/lib/websocket.ts:
exit(code) | disconnected(reason) | replaced | interrupted. -/
inductive ConnResult where
  | exit (code : Int)
  | disconnected (reason : String)
  | replaced
  | interrupted
deriving DecidableEq, Repr

/-! ## Reconnect Supervisor (src/commands/connect.ts) -/

/-- MAX_RECONNECT_ATTEMPTS in src/commands/connect.ts. -/
def MAX_RECONNECT_ATTEMPTS : Nat := 5

/-- The terminal action the connect command's while-loop ends with.
Each constructor corresponds to one of the loop's exit paths:
`processExit code` is process.exit(result.code) on an exit outcome,
`interruptedExit` is process.exit(130), `replacedExit` is
process.exit(0), `disconnectedGiveUp` is the --no-auto-reconnect
process.exit(1), and `reconnectCeiling` is the fatal failure after the
attempt ceiling that prints the manual command
"Run 'catty connect LABEL' to try again manually.".
`outOfResults` is a model artifact: the supplied outcome stream ran out
while the loop would have connected again. -/
inductive SuperviseResult where
  | processExit (code : Int)
  | interruptedExit
  | replacedExit
  | disconnectedGiveUp (reason : String)
  | reconnectCeiling
  | outOfResults
deriving DecidableEq, Repr

/-- The while(true) loop of connectCommand in src/commands/connect.ts,
abstracted over the stream of outcomes the successive
connectToSession calls return.  `attempts` is the mutable
reconnectAttempts counter.  The returned Nat counts how many
connection attempts (list elements) were consumed; the loop body for a
disconnected outcome increments the counter, stops fatally once it
exceeds MAX_RECONNECT_ATTEMPTS, and otherwise sleeps and retries. -/
def superviseLoop (autoReconnect : Bool) (attempts : Nat) :
    List ConnResult → Nat × SuperviseResult
  | [] => (0, .outOfResults)
  | r :: rest =>
    match r with
    | .exit code => (1, .processExit code)
    | .interrupted => (1, .interruptedExit)
    | .replaced => (1, .replacedExit)
    | .disconnected reason =>
      if autoReconnect = false then (1, .disconnectedGiveUp reason)
      else
        let attempts1 := attempts + 1
        if attempts1 > MAX_RECONNECT_ATTEMPTS then (1, .reconnectCeiling)
        else
          let next := superviseLoop autoReconnect attempts1 rest
          (next.1 + 1, next.2)

/-! ## Terminal Controller (src/lib/terminal.ts) -/

/-- State of one Terminal instance together with the terminal-device
state it manipulates.  `wasRaw` and `cleanupDone` are the instance's
private fields; `rawMode` models process.stdin's raw mode,
`bracketedPaste` and `cursorVisible` model the terminal modes driven by
the escape sequences restore() writes; `isTTY` models
process.stdin.isTTY; `handlersRegistered` models the module-level
globalHandlersRegistered flag. -/
structure TermState where
  isTTY : Bool
  wasRaw : Bool
  cleanupDone : Bool
  rawMode : Bool
  bracketedPaste : Bool
  cursorVisible : Bool
  handlersRegistered : Bool
deriving DecidableEq, Repr

/-- Terminal.makeRaw from src/lib/terminal.ts: no-op unless the stream
is a TTY and the instance is not already raw; otherwise enters raw mode,
records wasRaw, and registers the process-wide cleanup handlers once. -/
def makeRaw (s : TermState) : TermState :=
  if s.isTTY = false then s
  else if s.wasRaw then s
  else { s with rawMode := true, wasRaw := true, handlersRegistered := true }

/-- Terminal.restore from src/lib/terminal.ts: returns immediately when
cleanupDone is already set; otherwise, if the instance had entered raw
mode on a TTY, disables raw mode and writes the bracketed-paste-off and
cursor-show escape sequences, clears wasRaw, and in every case sets
cleanupDone. -/
def restore (s : TermState) : TermState :=
  if s.cleanupDone then s
  else if s.wasRaw ∧ s.isTTY then
    { s with rawMode := false, bracketedPaste := false,
             cursorVisible := true, wasRaw := false, cleanupDone := true }
  else { s with cleanupDone := true }

/-! ## Control Protocol Codec (src/protocol/messages.ts)

The messages are flat JSON objects.  We embed the codec over a JSON
value type: `JVal` covers the field values the protocol uses (strings,
numbers, booleans, null), and an object is a key-ordered field list.
Node's `JSON.stringify`/`JSON.parse` pair — a library bijection between
such objects and their wire text, external to the repository — is
treated as identity, so `encode` produces the object itself and
decoding works on the parsed document; `JSON.parse` throwing on invalid
text is modelled by the decoder input being `none`, and a parsed
document may be an object or a non-object JSON value (see `JTop` and
`parseMessageText`). -/

/-- A JSON field value as used by the control messages. -/
inductive JVal where
  | str (s : String)
  | num (n : Int)
  | jbool (b : Bool)
  | null
deriving DecidableEq, Repr

/-- A parsed JSON object: fields in order of appearance. -/
abbrev JObj := List (String × JVal)

/-- JS property access base.type on a parsed object (the constructors
never produce duplicate keys, so first occurrence is the value). -/
def getType (o : JObj) : Option JVal :=
  (o.find? (fun f => f.1 == "type")).map (fun f => f.2)

/-- Standard base64 alphabet, as used by Buffer.toString('base64'). -/
def b64Alphabet : List Char :=
  "ABCDEFGHIJKLMNOPQRSTUVWXYZabcdefghijklmnopqrstuvwxyz0123456789+/".toList

/-- The base64 digit for a 6-bit value. -/
def b64Char (n : Nat) : Char := b64Alphabet.getD n 'A'

/-- Node Buffer.toString('base64'): 3 input bytes become 4 digits, with
'=' padding on a 1- or 2-byte tail. -/
def b64encode : List UInt8 → List Char
  | [] => []
  | [a] =>
    [b64Char (a.toNat / 4), b64Char (a.toNat % 4 * 16), '=', '=']
  | [a, b] =>
    [b64Char (a.toNat / 4), b64Char (a.toNat % 4 * 16 + b.toNat / 16),
     b64Char (b.toNat % 16 * 4), '=']
  | a :: b :: c :: rest =>
    b64Char (a.toNat / 4) :: b64Char (a.toNat % 4 * 16 + b.toNat / 16) ::
    b64Char (b.toNat % 16 * 4 + c.toNat / 64) :: b64Char (c.toNat % 64) ::
    b64encode rest

/-- createResizeMessage: JSON.stringify of the object
with fields type:'resize', cols, rows. -/
def createResizeMessage (cols rows : Int) : JObj :=
  [("type", .str "resize"), ("cols", .num cols), ("rows", .num rows)]

/-- createSignalMessage: type:'signal' with the signal name. -/
def createSignalMessage (name : String) : JObj :=
  [("type", .str "signal"), ("name", .str name)]

/-- createPingMessage: the bare type:'ping' object. -/
def createPingMessage : JObj := [("type", JVal.str "ping")]

/-- createPongMessage: the bare type:'pong' object. -/
def createPongMessage : JObj := [("type", JVal.str "pong")]

/-- createSyncBackMessage: type:'sync_back' with the enabled flag. -/
def createSyncBackMessage (enabled : Bool) : JObj :=
  [("type", .str "sync_back"), ("enabled", .jbool enabled)]

/-- The well-formed ready message (interface ReadyMessage: carries only
its discriminator). -/
def readyMessageObj : JObj := [("type", JVal.str "ready")]

/-- A well-formed exit message (interface ExitMessage: integer code and
nullable signal name). -/
def exitMessageObj (code : Int) (signal : Option String) : JObj :=
  [("type", .str "exit"), ("code", .num code),
   ("signal", match signal with | some s => .str s | none => .null)]

/-- A well-formed error message (interface ErrorMessage). -/
def errorMessageObj (message : String) : JObj :=
  [("type", .str "error"), ("message", .str message)]

/-- A well-formed sync_back_ack message (interface SyncBackAckMessage:
enabled flag plus optional workspace_dir and interval_ms fields). -/
def syncBackAckMessageObj (enabled : Bool) (workspaceDir : Option String)
    (intervalMs : Option Int) : JObj :=
  [("type", .str "sync_back_ack"), ("enabled", .jbool enabled)] ++
  (match workspaceDir with
   | some d => [("workspace_dir", JVal.str d)]
   | none => []) ++
  (match intervalMs with
   | some i => [("interval_ms", JVal.num i)]
   | none => [])

/-- The action field of a file_change message. -/
inductive FileAction where
  | write
  | delete
deriving DecidableEq, Repr

/-- The wire form of a FileAction. -/
def FileAction.toStr : FileAction → String
  | .write => "write"
  | .delete => "delete"

/-- A well-formed file_change message (interface FileChangeMessage:
action in write/delete, path, optional base64 content, optional mode
bits). -/
def fileChangeMessageObj (action : FileAction) (path : String)
    (content : Option String) (mode : Option Int) : JObj :=
  [("type", .str "file_change"), ("action", .str action.toStr),
   ("path", .str path)] ++
  (match content with
   | some c => [("content", JVal.str c)]
   | none => []) ++
  (match mode with
   | some m => [("mode", JVal.num m)]
   | none => [])

/-- Modelled from the spec: createFileUploadMessage is in the
repository's protocol module but outside the provided sources (only its
importers appear); spec section 6 gives its wire format
file_upload with fields filename, path, content(base64), mime. -/
def createFileUploadMessage (filename path : String)
    (content : List UInt8) (mime : String) : JObj :=
  [("type", .str "file_upload"), ("filename", .str filename),
   ("path", .str path), ("content", .str (String.mk (b64encode content))),
   ("mime", .str mime)]

/-- Modelled from the spec: createFileUploadChunkMessage is in the
repository's protocol module but outside the provided sources; spec
section 6 gives its wire format file_upload_chunk with fields
upload_id, filename, path, index, total, chunk(base64), mime. -/
def createFileUploadChunkMessage (uploadId filename path : String)
    (index total : Nat) (chunk : List Char) (mime : String) : JObj :=
  [("type", .str "file_upload_chunk"), ("upload_id", .str uploadId),
   ("filename", .str filename), ("path", .str path),
   ("index", .num index), ("total", .num total),
   ("chunk", .str (String.mk chunk)), ("mime", .str mime)]

/-- parseMessage from src/protocol/messages.ts, after JSON.parse: the
switch on base.type re-parses (returns the same parsed object) for the
recognized field-carrying variants, rebuilds the bare object for
ping/pong/ready, and falls through to returning the parsed object
itself (base) for any unrecognized type — the forward-compatibility
default. -/
def parseMessage (o : JObj) : JObj :=
  match getType o with
  | some (.str t) =>
    if t = "resize" then o
    else if t = "signal" then o
    else if t = "ping" then [("type", JVal.str "ping")]
    else if t = "pong" then [("type", JVal.str "pong")]
    else if t = "ready" then [("type", JVal.str "ready")]
    else if t = "exit" then o
    else if t = "error" then o
    else if t = "sync_back" then o
    else if t = "sync_back_ack" then o
    else if t = "file_change" then o
    else o
  | _ => o

/-- The discriminator values parseMessage's switch recognizes. -/
def recognizedTypes : List String :=
  ["resize", "signal", "ping", "pong", "ready", "exit", "error",
   "sync_back", "sync_back_ack", "file_change"]

/-- A top-level JSON.parse result: a JSON object, or a non-object
document — null, a string, a number, or a boolean.  The protocol never
carries a top-level array; for the discriminator access below an array
would behave exactly like the non-null scalar case (the property
access yields undefined). -/
inductive JTop where
  | obj (o : JObj)
  | scalar (v : JVal)
deriving DecidableEq, Repr

/-- parseMessage applied to a raw text frame.  JSON.parse of the text
yields a parsed document (`some t`) or throws a SyntaxError (`none`),
which parseMessage propagates to its caller as the malformed-message
failure.  On the document null, the property access base.type itself
throws a TypeError (reading a property of null), which propagates too;
on any other non-object document the access yields undefined and the
switch default returns the document unchanged (base); on an object the
switch of parseMessage runs. -/
def parseMessageText (t : Option JTop) : Except String JTop :=
  match t with
  | none => .error "MalformedMessage"
  | some (.scalar .null) => .error "TypeError"
  | some (.scalar v) => .ok (.scalar v)
  | some (.obj o) => .ok (.obj (parseMessage o))

/-! ## Session Relay outcome delivery (src/lib/websocket.ts)

connectToSession creates one promise per attempt and wires a set of
handlers — signal handlers, the handshake-timeout timer, the
health-check timer, the WebSocket close/error/message listeners, and
the stdin handler — all of which can try to settle it.  We model the
mutable flags of the closure as a state record and each handler
invocation as an event processed by a step function; `outcomes` records
every resolution actually delivered to the caller. -/

/-- WS_POLICY_VIOLATION in src/lib/config.ts: the close code meaning
the connection was replaced by a new client. -/
def WS_POLICY_VIOLATION : Int := 1008

/-- The closure-captured mutable state of one connectToSession call:
the resolved guard flag and the delivered outcomes (modelling the
promise), the connectionClosed / connectionOpened / userInterrupted
flags, and the lastCtrlC timestamp. -/
structure RelayState where
  resolved : Bool
  outcomes : List ConnResult
  connectionClosed : Bool
  connectionOpened : Bool
  userInterrupted : Bool
  lastCtrlC : Int
deriving DecidableEq, Repr

/-- safeResolve from src/lib/websocket.ts: resolves the promise only if
the resolved flag is not yet set — first writer wins. -/
def safeResolve (s : RelayState) (r : ConnResult) : RelayState :=
  if s.resolved then s
  else { s with resolved := true, outcomes := s.outcomes ++ [r] }

/-- cleanup from src/lib/websocket.ts: sets connectionClosed, clears
the timers, restores the terminal and unhooks the listeners (the latter
are not tracked; the model conservatively lets later events still run
their handler bodies, whose own guards and safeResolve must then
protect outcome delivery). -/
def relayCleanup (s : RelayState) : RelayState :=
  { s with connectionClosed := true }

/-- One handler invocation inside connectToSession. `stdinCtrlC` is a
stdin data chunk containing the interrupt byte 0x03, with the
WebSocket's readyState and the current Date.now() value;
`healthCheckFire` carries whether the measured silence exceeded
CLIENT_TIMEOUT_MS; `msgOther` is any inbound control message other than
exit (error, ping, sync_back_ack, file_change, unrecognized), none of
which resolve. -/
inductive RelayEvent where
  | wsOpen
  | sigint
  | sigquit
  | connectTimeoutFire
  | healthCheckFire (silenceExceeded : Bool)
  | wsClose (code : Int) (reason : String)
  | wsError (message : String)
  | msgExit (code : Int)
  | msgOther
  | stdinCtrlC (wsIsOpen : Bool) (now : Int)
deriving DecidableEq, Repr

/-- The handler bodies of connectToSession, one case per event source,
each transcribed from src/lib/websocket.ts: handleSigint/handleSigquit,
the connectionTimeout callback (guarded by the opened and closed
flags), the healthCheckInterval callback, ws.on close/error (early
return when connectionClosed, silent return when userInterrupted,
replaced on code 1008), handleControlMessage's exit case, and the
double-Ctrl+C branch of handleStdinData (DOUBLE_CTRLC_MS = 1000). -/
def relayStep (s : RelayState) : RelayEvent → RelayState
  | .wsOpen => { s with connectionOpened := true }
  | .sigint =>
    safeResolve (relayCleanup { s with userInterrupted := true })
      .interrupted
  | .sigquit =>
    safeResolve (relayCleanup { s with userInterrupted := true })
      .interrupted
  | .connectTimeoutFire =>
    if s.connectionOpened = false ∧ s.connectionClosed = false then
      safeResolve { s with connectionClosed := true }
        (.disconnected "Connection timeout")
    else s
  | .healthCheckFire silenceExceeded =>
    if s.connectionClosed then s
    else if silenceExceeded then
      safeResolve (relayCleanup s)
        (.disconnected "Connection timed out (no data received)")
    else s
  | .wsClose code reason =>
    if s.connectionClosed then s
    else if s.userInterrupted then relayCleanup s
    else if code = WS_POLICY_VIOLATION then
      safeResolve (relayCleanup s) .replaced
    else safeResolve (relayCleanup s) (.disconnected reason)
  | .wsError message =>
    if s.connectionClosed then s
    else if s.userInterrupted then relayCleanup s
    else safeResolve (relayCleanup s) (.disconnected message)
  | .msgExit code => safeResolve (relayCleanup s) (.exit code)
  | .msgOther => s
  | .stdinCtrlC wsIsOpen now =>
    if wsIsOpen = false then s
    else if now - s.lastCtrlC < 1000 then
      safeResolve (relayCleanup { s with userInterrupted := true })
        .interrupted
    else { s with lastCtrlC := now }

/-- The state at the start of a connectToSession call. -/
def relayInit : RelayState :=
  { resolved := false, outcomes := [], connectionClosed := false,
    connectionOpened := false, userInterrupted := false, lastCtrlC := 0 }

/-- Run one connection attempt over a sequence of handler events. -/
def relayRun (es : List RelayEvent) : RelayState :=
  es.foldl relayStep relayInit

/-! ## Paste/Stream Demultiplexer and stdin handling
(handleStdinData in src/lib/websocket.ts)

A stdin chunk is a JS string (the Buffer decoded as UTF-8), modelled as
a list of characters.  `findSub` is String.indexOf: the first position
at which the pattern occurs, none standing for -1. -/

/-- The bracketed-paste start marker, ESC [ 2 0 0 ~ . -/
def PASTE_START : List Char := "\x1b[200~".toList

/-- The bracketed-paste end marker, ESC [ 2 0 1 ~ . -/
def PASTE_END : List Char := "\x1b[201~".toList

/-- DOUBLE_CTRLC_MS in src/lib/websocket.ts. -/
def DOUBLE_CTRLC_MS : Int := 1000

/-- String.indexOf: index of the first occurrence of pat in the
string, none when absent. -/
def findSub (pat : List Char) : List Char → Option Nat
  | [] => if pat.isEmpty then some 0 else none
  | c :: rest =>
    if pat.isPrefixOf (c :: rest) then some 0
    else (findSub pat rest).map (fun i => i + 1)

/-- The paste-detection state of the stdin handler closure: the inPaste
flag and the pasteBuffer accumulator. -/
structure DemuxState where
  inPaste : Bool
  pasteBuffer : List Char
deriving DecidableEq, Repr

/-- What one stdin chunk makes the handler do: `send` forwards bytes to
the transport (ws.send), `paste` hands a reassembled payload to
handlePastedContent, and `resolve` delivers a connection outcome
(safeResolve on the double-Ctrl+C path). -/
inductive OutEvent where
  | send (bytes : List Char)
  | paste (payload : List Char)
  | resolve (r : ConnResult)
deriving DecidableEq, Repr

/-- ws.send of a string the code guards with a truthiness check
(`if (afterEnd)` / `if (pasteStartIdx > 0)`): nothing is sent when the
string is empty. -/
def sendIfNonempty (l : List Char) : List OutEvent :=
  if l.isEmpty then [] else [OutEvent.send l]

/-- The paste-scanning body of handleStdinData (the try block): outside
a paste, forward marker-free chunks whole; on a start marker, forward
the bytes before it, then either complete the paste within the chunk or
enter the in-paste state buffering the remainder; inside a paste,
buffer end-marker-free chunks and close the paste when the end marker
appears, forwarding any bytes after it. -/
def demuxStep (st : DemuxState) (str : List Char) :
    DemuxState × List OutEvent :=
  if st.inPaste = false then
    match findSub PASTE_START str with
    | none => (st, [OutEvent.send str])
    | some i =>
      let preEvents := sendIfNonempty (str.take i)
      let afterStart := str.drop (i + PASTE_START.length)
      match findSub PASTE_END afterStart with
      | some j =>
        let pasted := afterStart.take j
        let afterEnd := afterStart.drop (j + PASTE_END.length)
        (st, preEvents ++ [OutEvent.paste pasted] ++ sendIfNonempty afterEnd)
      | none =>
        ({ inPaste := true, pasteBuffer := afterStart }, preEvents)
  else
    match findSub PASTE_END str with
    | none =>
      ({ st with pasteBuffer := st.pasteBuffer ++ str }, [])
    | some j =>
      let pasted := st.pasteBuffer ++ str.take j
      let afterEnd := str.drop (j + PASTE_END.length)
      ({ inPaste := false, pasteBuffer := [] },
       [OutEvent.paste pasted] ++ sendIfNonempty afterEnd)

/-- The stdin handler closure state: the lastCtrlC timestamp plus the
paste state. -/
structure StdinState where
  lastCtrlC : Int
  demux : DemuxState
deriving DecidableEq, Repr

/-- handleStdinData from src/lib/websocket.ts, for a chunk arriving at
time `now` while the socket is open: a chunk containing the interrupt
byte 0x03 within DOUBLE_CTRLC_MS of the previous one resolves the
attempt as interrupted and processes nothing further; a first interrupt
byte only records its time and falls through to the paste scanner,
which forwards it to the remote side. -/
def handleStdinDataModel (st : StdinState) (now : Int)
    (data : List Char) : StdinState × List OutEvent :=
  if data.contains '\x03' then
    if now - st.lastCtrlC < DOUBLE_CTRLC_MS then
      (st, [OutEvent.resolve ConnResult.interrupted])
    else
      let d := demuxStep st.demux data
      ({ lastCtrlC := now, demux := d.1 }, d.2)
  else
    let d := demuxStep st.demux data
    ({ st with demux := d.1 }, d.2)

/-- The stdin handler state at connection start: lastCtrlC = 0, not in
a paste, empty buffer. -/
def stdinInit : StdinState :=
  { lastCtrlC := 0, demux := { inPaste := false, pasteBuffer := [] } }

/-- Feed a sequence of timestamped stdin chunks through the handler,
collecting the emitted events in order. -/
def runStdin (st : StdinState) :
    List (Int × List Char) → StdinState × List OutEvent
  | [] => (st, [])
  | (now, data) :: rest =>
    let r := handleStdinDataModel st now data
    let r2 := runStdin r.1 rest
    (r2.1, r.2 ++ r2.2)

/-! ## Sync-Back Writer (src/lib/syncback.ts)

applyRemoteFileChange validates the remote path with Node's posix path
functions and applies the change to the local filesystem.  The path
functions (normalize, join, dirname, isAbsolute, sep) are embedded
below following Node's posix implementations; the filesystem is a map
from absolute path to file data, and the write branch is a sequence of
syscalls so that crash points between them are expressible. -/

/-- Node's posix path separator. -/
def pathSep : String := "/"

/-- JS String.startsWith, evaluated on the character lists. -/
def strStartsWith (s pre : String) : Bool :=
  pre.toList.isPrefixOf s.toList

/-- JS String.endsWith, evaluated on the character lists. -/
def strEndsWith (s suf : String) : Bool :=
  suf.toList.isSuffixOf s.toList

/-- Split a character list at every '/' (String.split on the
separator, keeping empty segments). -/
def splitSlash : List Char → List (List Char)
  | [] => [[]]
  | c :: rest =>
    let r := splitSlash rest
    if c = '/' then [] :: r
    else
      match r with
      | [] => [[c]]
      | s :: ss => (c :: s) :: ss

/-- The '/' separated segments of a path. -/
def pathSegments (p : String) : List String :=
  (splitSlash p.toList).map String.mk

/-- Join segments with the separator (String intercalate "/"). -/
def joinSegs : List String → String
  | [] => ""
  | [s] => s
  | s :: rest => s ++ "/" ++ joinSegs rest

/-- The segment resolver inside Node path.normalize (normalizeString):
empty and "." segments vanish; ".." pops the previous segment, or is
kept at the front when the path is relative (allowAboveRoot) and there
is nothing left to pop. -/
def normSegs (allowAboveRoot : Bool) (segs : List String) : List String :=
  segs.foldl
    (fun acc seg =>
      if seg = "" ∨ seg = "." then acc
      else if seg = ".." then
        if acc ≠ [] ∧ acc.getLast? ≠ some ".." then acc.dropLast
        else if allowAboveRoot then acc ++ [".."]
        else acc
      else acc ++ [seg]) []

/-- Node path.posix.normalize: resolve "." and ".." segments, collapse
repeated separators, keep a leading "/" and a trailing separator, and
return "." for an empty result. -/
def pathNormalize (p : String) : String :=
  if p = "" then "."
  else
    let isAbs := strStartsWith p "/"
    let trailing := strEndsWith p "/"
    let body := joinSegs (normSegs (!isAbs) (pathSegments p))
    if body = "" then
      if isAbs then "/" else if trailing then "./" else "."
    else
      (if isAbs then "/" ++ body else body) ++ (if trailing then "/" else "")

/-- Node path.posix.isAbsolute. -/
def isAbsolutePath (p : String) : Bool := strStartsWith p "/"

/-- Node path.posix.join of two parts: concatenate the non-empty parts
with the separator and normalize. -/
def pathJoin (a b : String) : String :=
  if a = "" ∧ b = "" then "."
  else if a = "" then pathNormalize b
  else if b = "" then pathNormalize a
  else pathNormalize (a ++ "/" ++ b)

/-- Node path.posix.dirname: the path up to (excluding) the last
separator that still has a non-separator character after it, "/" for
root-only paths and "." when there is no separator. -/
def dirname (p : String) : String :=
  let cs := p.toList
  if cs = [] then "."
  else
    let hasRoot := cs.head? = some '/'
    let stripped := (cs.reverse.dropWhile (fun c => c = '/')).reverse
    let idxs := (List.range stripped.length).filter
      (fun i => stripped.getD i ' ' = '/' ∧ 1 ≤ i)
    match idxs.getLast? with
    | none => if hasRoot then "/" else "."
    | some i => String.mk (cs.take i)

/-- The 6-bit value of a base64 digit, none for non-alphabet
characters (Buffer.from(-, 'base64') skips padding and invalid
characters). -/
def b64val (c : Char) : Option Nat := b64Alphabet.findIdx? (fun d => d = c)

/-- Reassemble bytes from a run of base64 digit values: each complete
quadruple yields three bytes, a trailing triple two, a trailing pair
one. -/
def b64decodeVals : List Nat → List UInt8
  | a :: b :: c :: d :: rest =>
    UInt8.ofNat (a * 4 + b / 16) :: UInt8.ofNat (b % 16 * 16 + c / 4) ::
    UInt8.ofNat (c % 4 * 64 + d) :: b64decodeVals rest
  | [a, b, c] =>
    [UInt8.ofNat (a * 4 + b / 16), UInt8.ofNat (b % 16 * 16 + c / 4)]
  | [a, b] => [UInt8.ofNat (a * 4 + b / 16)]
  | _ => []

/-- Node Buffer.from(s, 'base64'). -/
def b64decode (s : String) : List UInt8 :=
  b64decodeVals (s.toList.filterMap b64val)

/-- A file's observable state: its bytes and mode bits. -/
structure FileData where
  content : List UInt8
  mode : Nat
deriving DecidableEq, Repr

/-- The local filesystem's files, by absolute path.  Directories are
not tracked: mkdirSync creates no file. -/
abbrev FS := String → Option FileData

/-- One fs syscall issued by the write branch. -/
inductive FsOp where
  | mkdirp (dir : String)
  | writeFile (path : String) (data : FileData)
  | rename (src dst : String)
deriving DecidableEq, Repr

/-- Effect of one syscall on the file map: mkdirSync touches no file;
writeFileSync replaces the path's data; renameSync moves the source
file onto the destination. -/
def applyOp (fs : FS) : FsOp → FS
  | .mkdirp _ => fs
  | .writeFile p d => fun q => if q = p then some d else fs q
  | .rename src dst => fun q =>
    if q = dst then fs src
    else if q = src then none
    else fs q

/-- The mode writeFileSync is given: msg.mode || 0o644, JS falsiness
making an absent or zero mode fall back to 0o644. -/
def writeFileMode (mode : Option Nat) : Nat :=
  match mode with
  | some m => if m = 0 then 420 else m
  | none => 420

/-- The syscall sequence of the write branch of applyRemoteFileChange:
mkdirSync(dirname(destPath), recursive), writeFileSync to the
.catty-sync-(Date.now()) temp file in the destination's own parent
directory, then renameSync of the temp file onto the destination. -/
def writeOps (destPath : String) (content : List UInt8)
    (mode : Option Nat) (tNow : Nat) : List FsOp :=
  [FsOp.mkdirp (dirname destPath),
   FsOp.writeFile
     (pathJoin (dirname destPath) (".catty-sync-" ++ toString tNow))
     { content := content, mode := writeFileMode mode },
   FsOp.rename
     (pathJoin (dirname destPath) (".catty-sync-" ++ toString tNow))
     destPath]

/-- A file_change message as the sync-back writer consumes it
(interface FileChangeMessage, with the base64 content still
undecoded). -/
structure FileChange where
  action : FileAction
  path : String
  content : Option String
  mode : Option Nat
deriving DecidableEq, Repr

/-- The single String.replace of the regex anchored at the start:
msg.path.replace of a leading "./" with nothing. -/
def stripDotSlash (p : String) : String :=
  if strStartsWith p "./" then String.mk (p.toList.drop 2) else p

/-- applyRemoteFileChange from src/lib/syncback.ts, with process.cwd()
and Date.now() passed explicitly: normalize the path (after dropping a
leading "./"), reject empty, ".", absolute, and leading-".."-segment
results, resolve against the working directory, re-check the resolved
path is under it, then delete (unlinkSync, absence swallowed by the
catch) or write through the temp-file-then-rename syscall sequence. -/
def applyRemoteFileChange (cwd : String) (tNow : Nat) (msg : FileChange)
    (fs : FS) : FS :=
  let rel := pathNormalize (stripDotSlash msg.path)
  if rel = "" ∨ rel = "." then fs
  else if isAbsolutePath rel then fs
  else if rel = ".." ∨ strStartsWith rel (".." ++ pathSep) then fs
  else
    let destPath := pathJoin cwd rel
    let resolvedCwd := pathNormalize cwd
    let resolvedDest := pathNormalize destPath
    if ¬strStartsWith resolvedDest (resolvedCwd ++ pathSep) ∧
        resolvedDest ≠ resolvedCwd then fs
    else
      match msg.action with
      | .delete => fun q => if q = destPath then none else fs q
      | .write =>
        (writeOps destPath (b64decode (msg.content.getD "")) msg.mode
          tNow).foldl applyOp fs

/-! ## File-Upload Detector and chunked upload
(src/lib/file-upload.ts, uploadFile in src/lib/websocket.ts) -/

/-- MAX_FILE_SIZE in src/lib/file-upload.ts: 10 MB. -/
def MAX_FILE_SIZE : Nat := 10 * 1024 * 1024

/-- CHUNK_SIZE in src/lib/file-upload.ts: 10 KB of raw bytes. -/
def CHUNK_SIZE : Nat := 10 * 1024

/-- IMAGE_EXTENSIONS in src/lib/file-upload.ts. -/
def IMAGE_EXTENSIONS : List String :=
  [".png", ".jpg", ".jpeg", ".gif", ".webp", ".bmp", ".svg"]

/-- DOCUMENT_EXTENSIONS in src/lib/file-upload.ts. -/
def DOCUMENT_EXTENSIONS : List String :=
  [".pdf", ".txt", ".md", ".json", ".xml", ".csv"]

/-- SUPPORTED_EXTENSIONS: images then documents. -/
def SUPPORTED_EXTENSIONS : List String :=
  IMAGE_EXTENSIONS ++ DOCUMENT_EXTENSIONS

/-- JS String.toLowerCase over the character list. -/
def toLowerStr (s : String) : String :=
  String.mk (s.toList.map Char.toLower)

/-- getMimeType from src/lib/file-upload.ts: the extension-to-MIME
table, defaulting to application/octet-stream. -/
def getMimeType (ext : String) : String :=
  let e := toLowerStr ext
  if e = ".png" then "image/png"
  else if e = ".jpg" then "image/jpeg"
  else if e = ".jpeg" then "image/jpeg"
  else if e = ".gif" then "image/gif"
  else if e = ".webp" then "image/webp"
  else if e = ".bmp" then "image/bmp"
  else if e = ".svg" then "image/svg+xml"
  else if e = ".pdf" then "application/pdf"
  else if e = ".txt" then "text/plain"
  else if e = ".md" then "text/markdown"
  else if e = ".json" then "application/json"
  else if e = ".xml" then "application/xml"
  else if e = ".csv" then "text/csv"
  else "application/octet-stream"

/-- The characters of a path after its last separator (Node posix
basename of a separator-free tail). -/
def baseNamePart (p : String) : List Char :=
  (p.toList.reverse.takeWhile (fun c => c ≠ '/')).reverse

/-- Node path.extname: from the last "." of the basename, unless that
dot is the basename's first character. -/
def extnameOf (p : String) : String :=
  let base := baseNamePart p
  let idxs := (List.range base.length).filter
    (fun i => base.getD i ' ' = '.' ∧ 1 ≤ i)
  match idxs.getLast? with
  | none => ""
  | some i => String.mk (base.drop i)

/-- Node path.basename(p, ext): the basename with a matching extension
suffix removed (unless the basename is the extension itself). -/
def basenameWithoutExt (p ext : String) : String :=
  let base := String.mk (baseNamePart p)
  if ext ≠ "" ∧ strEndsWith base ext ∧ base ≠ ext then
    String.mk (base.toList.take (base.toList.length - ext.toList.length))
  else base

/-- The regex replace of every whitespace run by one underscore. -/
def collapseWs (prevWs : Bool) : List Char → List Char
  | [] => []
  | c :: rest =>
    if c.isWhitespace then
      if prevWs then collapseWs true rest
      else '_' :: collapseWs true rest
    else c :: collapseWs false rest

/-- The character class kept by the second sanitizing regex:
ASCII letters, digits, underscore, hyphen. -/
def isAllowedChar (c : Char) : Bool :=
  ('a' ≤ c && c ≤ 'z') || ('A' ≤ c && c ≤ 'Z') ||
  ('0' ≤ c && c ≤ '9') || c = '_' || c = '-'

/-- generateUniqueFilename from src/lib/file-upload.ts, with Date.now()
passed explicitly: sanitize the extension-free basename (whitespace
runs to underscores, other special characters removed) and append the
timestamp and the extension. -/
def generateUniqueFilename (originalFilename : String) (timestamp : Nat) :
    String :=
  let ext := extnameOf originalFilename
  let nameWithoutExt := basenameWithoutExt originalFilename ext
  let sanitized :=
    String.mk ((collapseWs false nameWithoutExt.toList).filter isAllowedChar)
  sanitized ++ "-" ++ toString timestamp ++ ext

/-- FileUploadResult from src/lib/file-upload.ts. -/
structure FileUploadResult where
  shouldUpload : Bool
  localPath : Option String
  remotePath : Option String
  content : Option (List UInt8)
  filename : Option String
  mimeType : Option String
deriving DecidableEq, Repr

/-- shouldAutoUpload from src/lib/file-upload.ts, with the statSync
result (is-regular-file flag and size) and the readFileSync bytes
passed explicitly: rejects non-files, files over MAX_FILE_SIZE, and
unsupported extensions; otherwise returns the upload data. -/
def shouldAutoUpload (filePath : String) (isFile : Bool) (size : Nat)
    (bytes : List UInt8) : FileUploadResult :=
  if isFile = false then
    { shouldUpload := false, localPath := none, remotePath := none,
      content := none, filename := none, mimeType := none }
  else if size > MAX_FILE_SIZE then
    { shouldUpload := false, localPath := none, remotePath := none,
      content := none, filename := none, mimeType := none }
  else if (SUPPORTED_EXTENSIONS.contains (toLowerStr (extnameOf filePath))) = false then
    { shouldUpload := false, localPath := none, remotePath := none,
      content := none, filename := none, mimeType := none }
  else
    { shouldUpload := true, localPath := some filePath,
      remotePath := some ("/workspace/.catty-uploads/" ++
        String.mk (baseNamePart filePath)),
      content := some bytes,
      filename := some (String.mk (baseNamePart filePath)),
      mimeType := some (getMimeType (toLowerStr (extnameOf filePath))) }

/-- Ceiling division on naturals, the exact value of Math.ceil(a / b)
for positive integers. -/
def natCeilDiv (a b : Nat) : Nat := (a + b - 1) / b

/-- uploadFile from src/lib/websocket.ts, with the upload id (built
from Date.now() and Math.random()) and Date.now() passed explicitly:
bail out when shouldAutoUpload declined or any field is missing/empty
(JS falsiness); otherwise build the unique destination name and either
send the whole file as one file_upload message when the raw size is not
above CHUNK_SIZE, or base64-encode it and send
Math.ceil(length / (CHUNK_SIZE * 1.34)) file_upload_chunk messages of
ceil(length / totalChunks) characters each (the last taking the
remainder), in index order.  1.34 is taken as the exact rational
134/100: for lengths under the 10 MB acceptance cap the double
rounding of the source's float cannot move the ceiling. -/
def uploadFile (uploadId : String) (now : Nat) (info : FileUploadResult) :
    List JObj × Option String :=
  match info.shouldUpload, info.content, info.filename, info.remotePath,
      info.mimeType with
  | true, some content, some filename, some remotePath, some mime =>
    if filename = "" ∨ remotePath = "" ∨ mime = "" then ([], none)
    else
      let uniqueFilename := generateUniqueFilename filename now
      let uniqueRemotePath := "/workspace/.catty-uploads/" ++ uniqueFilename
      let fileSize := content.length
      if fileSize > CHUNK_SIZE then
        let base64Content := b64encode content
        let totalChunks :=
          natCeilDiv (base64Content.length * 100) (CHUNK_SIZE * 134)
        let chunkSize := natCeilDiv base64Content.length totalChunks
        ((List.range totalChunks).map (fun i =>
          createFileUploadChunkMessage uploadId uniqueFilename
            uniqueRemotePath i totalChunks
            ((base64Content.drop (i * chunkSize)).take
              (min (i * chunkSize + chunkSize) base64Content.length -
                i * chunkSize)) mime),
         some uniqueRemotePath)
      else
        ([createFileUploadMessage uniqueFilename uniqueRemotePath content
            mime],
         some uniqueRemotePath)
  | _, _, _, _, _ => ([], none)

end Catty

/-! ## Theorems -/

namespace Catty

/-- Per-state outcome invariant: no outcome before the resolved flag is
set, and exactly one once it is. -/
def RelayInv (s : RelayState) : Prop :=
  (s.resolved = false → s.outcomes = []) ∧
  (s.resolved = true → s.outcomes.length = 1)

theorem relayInv_length {s : RelayState} (h : RelayInv s) :
    s.outcomes.length ≤ 1 := by
  cases hres : s.resolved with
  | false => simp [h.1 hres]
  | true => exact Nat.le_of_eq (h.2 hres)

theorem safeResolve_inv {s : RelayState} (h : RelayInv s) (r : ConnResult) :
    RelayInv (safeResolve s r) := by
  unfold safeResolve
  split
  · exact h
  · next hres =>
    have h0 : s.outcomes = [] := h.1 (by simpa using hres)
    constructor
    · intro hfalse
      simp at hfalse
    · intro _
      simp [h0]

theorem relayInv_of_eq {s t : RelayState} (h : RelayInv s)
    (hr : t.resolved = s.resolved) (ho : t.outcomes = s.outcomes) :
    RelayInv t := by
  unfold RelayInv at h ⊢
  rw [hr, ho]
  exact h

theorem relayStep_inv {s : RelayState} (h : RelayInv s) (e : RelayEvent) :
    RelayInv (relayStep s e) := by
  cases e with
  | wsOpen =>
    simp only [relayStep]
    exact relayInv_of_eq h rfl rfl
  | sigint =>
    simp only [relayStep]
    apply safeResolve_inv
    exact relayInv_of_eq h rfl rfl
  | sigquit =>
    simp only [relayStep]
    apply safeResolve_inv
    exact relayInv_of_eq h rfl rfl
  | connectTimeoutFire =>
    simp only [relayStep]
    split
    · apply safeResolve_inv
      exact relayInv_of_eq h rfl rfl
    · exact h
  | healthCheckFire silenceExceeded =>
    simp only [relayStep]
    split
    · exact h
    · split
      · apply safeResolve_inv
        exact relayInv_of_eq h rfl rfl
      · exact h
  | wsClose code reason =>
    simp only [relayStep]
    split
    · exact h
    · split
      · exact relayInv_of_eq h rfl rfl
      · split
        · apply safeResolve_inv
          exact relayInv_of_eq h rfl rfl
        · apply safeResolve_inv
          exact relayInv_of_eq h rfl rfl
  | wsError message =>
    simp only [relayStep]
    split
    · exact h
    · split
      · exact relayInv_of_eq h rfl rfl
      · apply safeResolve_inv
        exact relayInv_of_eq h rfl rfl
  | msgExit code =>
    simp only [relayStep]
    apply safeResolve_inv
    exact relayInv_of_eq h rfl rfl
  | msgOther => exact h
  | stdinCtrlC wsIsOpen now =>
    simp only [relayStep]
    split
    · exact h
    · split
      · apply safeResolve_inv
        exact relayInv_of_eq h rfl rfl
      · exact relayInv_of_eq h rfl rfl

theorem relayStep_frozen {s : RelayState} (h : s.resolved = true)
    (e : RelayEvent) :
    (relayStep s e).outcomes = s.outcomes ∧
    (relayStep s e).resolved = true := by
  have hsr : ∀ (t : RelayState) (r : ConnResult), t.resolved = true →
      (safeResolve t r).outcomes = t.outcomes ∧
      (safeResolve t r).resolved = true := by
    intro t r ht
    unfold safeResolve
    simp [ht]
  cases e with
  | wsOpen => exact ⟨rfl, h⟩
  | sigint =>
    simp only [relayStep]
    refine hsr _ _ ?_
    exact h
  | sigquit =>
    simp only [relayStep]
    refine hsr _ _ ?_
    exact h
  | connectTimeoutFire =>
    simp only [relayStep]
    split
    · refine hsr _ _ ?_
      exact h
    · exact ⟨rfl, h⟩
  | healthCheckFire silenceExceeded =>
    simp only [relayStep]
    split
    · exact ⟨rfl, h⟩
    · split
      · refine hsr _ _ ?_
        exact h
      · exact ⟨rfl, h⟩
  | wsClose code reason =>
    simp only [relayStep]
    split
    · exact ⟨rfl, h⟩
    · split
      · exact ⟨rfl, h⟩
      · split
        · refine hsr _ _ ?_
          exact h
        · refine hsr _ _ ?_
          exact h
  | wsError message =>
    simp only [relayStep]
    split
    · exact ⟨rfl, h⟩
    · split
      · exact ⟨rfl, h⟩
      · refine hsr _ _ ?_
        exact h
  | msgExit code =>
    simp only [relayStep]
    refine hsr _ _ ?_
    exact h
  | msgOther => exact ⟨rfl, h⟩
  | stdinCtrlC wsIsOpen now =>
    simp only [relayStep]
    split
    · exact ⟨rfl, h⟩
    · split
      · refine hsr _ _ ?_
        exact h
      · exact ⟨rfl, h⟩

theorem relayFold_inv (es : List RelayEvent) :
    ∀ s : RelayState, RelayInv s → RelayInv (es.foldl relayStep s) := by
  induction es with
  | nil => intro s h; exact h
  | cons e rest ih =>
    intro s h
    exact ih _ (relayStep_inv h e)

theorem relayFold_frozen (es : List RelayEvent) :
    ∀ s : RelayState, s.resolved = true →
      (es.foldl relayStep s).outcomes = s.outcomes ∧
      (es.foldl relayStep s).resolved = true := by
  induction es with
  | nil => intro s h; exact ⟨rfl, h⟩
  | cons e rest ih =>
    intro s h
    have hstep := relayStep_frozen h e
    have := ih (relayStep s e) hstep.2
    exact ⟨hstep.1.symm ▸ this.1, this.2⟩

end Catty

/-- C1: For one call to connectToSession, at most one outcome is ever
delivered across any interleaving of termination signals; when any
outcome has been delivered, exactly one was; and any events processed
after delivery — racing transport close/error, Ctrl+C, exit messages,
timer fires — are discarded without producing a second outcome (the
first writer wins). -/
theorem connection_outcome_exactly_once
    (es es' : List Catty.RelayEvent) :
    (Catty.relayRun es).outcomes.length ≤ 1 ∧
    ((Catty.relayRun es).resolved = true →
      (Catty.relayRun es).outcomes.length = 1) ∧
    ((Catty.relayRun es).resolved = true →
      (Catty.relayRun (es ++ es')).outcomes = (Catty.relayRun es).outcomes) := by
  have hinit : Catty.RelayInv Catty.relayInit := by
    constructor
    · intro _
      rfl
    · intro hres
      simp [Catty.relayInit] at hres
  have hinv := Catty.relayFold_inv es Catty.relayInit hinit
  refine ⟨Catty.relayInv_length hinv, ?_, ?_⟩
  · intro hres
    exact hinv.2 hres
  · intro hres
    unfold Catty.relayRun
    rw [List.foldl_append]
    exact (Catty.relayFold_frozen es' _ hres).1

/-- Witness for C1's theorem: a Ctrl+C interrupt resolves the attempt,
and a racing transport close plus a late exit message change nothing. -/
theorem connection_outcome_exactly_once_witness :
    (Catty.relayRun [Catty.RelayEvent.sigint]).resolved = true ∧
    (Catty.relayRun ([Catty.RelayEvent.sigint] ++
        [Catty.RelayEvent.wsClose 1006 "abnormal",
         Catty.RelayEvent.msgExit 0])).outcomes =
      (Catty.relayRun [Catty.RelayEvent.sigint]).outcomes :=
  ⟨rfl,
    (connection_outcome_exactly_once [Catty.RelayEvent.sigint]
      [Catty.RelayEvent.wsClose 1006 "abnormal",
       Catty.RelayEvent.msgExit 0]).2.2 rfl⟩


/-- C6: The reconnect supervisor retries only on disconnected outcomes
and only up to the ceiling of MAX_RECONNECT_ATTEMPTS = 5: a
process-exited, user-interrupted, or replaced outcome consumes exactly
one connection attempt and never produces a further one, at any
reconnect count; six consecutive disconnections exhaust the initial
attempt plus the five permitted retries, after which the loop reports
the fatal failure naming the manual reconnect command and consumes no
further element of the outcome stream. -/
theorem reconnect_supervisor_ceiling_and_finality
    (a : Bool) (attempts : Nat) (rest : List Catty.ConnResult)
    (code : Int) (reason : String) :
    Catty.superviseLoop a attempts (.exit code :: rest) =
      (1, .processExit code) ∧
    Catty.superviseLoop a attempts (.interrupted :: rest) =
      (1, .interruptedExit) ∧
    Catty.superviseLoop a attempts (.replaced :: rest) =
      (1, .replacedExit) ∧
    Catty.superviseLoop true 0
        (List.replicate 6 (.disconnected reason) ++ rest) =
      (6, .reconnectCeiling) := by
  refine ⟨rfl, rfl, rfl, ?_⟩
  simp [List.replicate, Catty.superviseLoop, Catty.MAX_RECONNECT_ATTEMPTS]

/-- C7: decoding the encoding of every well-formed control message of
every documented variant — resize, signal, ping, pong, ready, exit,
error, sync_back, sync_back_ack, file_change, file_upload,
file_upload_chunk — yields the message again (the stringify/parse wire
round-trip of the ambient JSON library being identity on these
objects). -/
theorem control_message_roundtrip
    (cols rows code mode intervalMs : Int) (index total : Nat)
    (name message path filename uploadId mime workspaceDir content : String)
    (enabled : Bool) (signal : Option String) (action : Catty.FileAction)
    (bytes : List UInt8) (chunk : List Char) :
    Catty.parseMessage (Catty.createResizeMessage cols rows) =
      Catty.createResizeMessage cols rows ∧
    Catty.parseMessage (Catty.createSignalMessage name) =
      Catty.createSignalMessage name ∧
    Catty.parseMessage Catty.createPingMessage = Catty.createPingMessage ∧
    Catty.parseMessage Catty.createPongMessage = Catty.createPongMessage ∧
    Catty.parseMessage Catty.readyMessageObj = Catty.readyMessageObj ∧
    Catty.parseMessage (Catty.exitMessageObj code signal) =
      Catty.exitMessageObj code signal ∧
    Catty.parseMessage (Catty.errorMessageObj message) =
      Catty.errorMessageObj message ∧
    Catty.parseMessage (Catty.createSyncBackMessage enabled) =
      Catty.createSyncBackMessage enabled ∧
    Catty.parseMessage
        (Catty.syncBackAckMessageObj enabled (some workspaceDir)
          (some intervalMs)) =
      Catty.syncBackAckMessageObj enabled (some workspaceDir)
        (some intervalMs) ∧
    Catty.parseMessage
        (Catty.fileChangeMessageObj action path (some content) (some mode)) =
      Catty.fileChangeMessageObj action path (some content) (some mode) ∧
    Catty.parseMessage
        (Catty.createFileUploadMessage filename path bytes mime) =
      Catty.createFileUploadMessage filename path bytes mime ∧
    Catty.parseMessage
        (Catty.createFileUploadChunkMessage uploadId filename path index
          total chunk mime) =
      Catty.createFileUploadChunkMessage uploadId filename path index
        total chunk mime :=
  ⟨rfl, rfl, rfl, rfl, rfl, rfl, rfl, rfl, rfl, rfl, rfl, rfl⟩

/-- C8 counterexample: a payload that is valid JSON but carries no
`type` discriminator at all is decoded to a message value (the inert
parsed object itself), not to a MalformedMessage failure, refuting the
claim that decode fails on every recognized-discriminator-free
payload. -/
theorem decode_missing_discriminator_counterexample :
    Catty.parseMessageText
        (some (.obj [("foo", Catty.JVal.num 1)])) =
      Except.ok (.obj [("foo", Catty.JVal.num 1)]) := rfl

set_option maxHeartbeats 1000000 in
/-- C8 amended: decode fails exactly when the payload is not valid JSON
(JSON.parse throws a SyntaxError) or is the JSON document null (the
discriminator access base.type throws a TypeError on it); any other
valid JSON payload — in particular an object lacking a recognized
`type` discriminator, or a non-null scalar document — is returned as an
inert unrecognized message value, never a failure. -/
theorem decode_failure_only_on_invalid_json (o : Catty.JObj)
    (v : Catty.JVal)
    (h : ∀ s, Catty.getType o = some (.str s) → s ∉ Catty.recognizedTypes)
    (hv : v ≠ Catty.JVal.null) :
    Catty.parseMessageText none = Except.error "MalformedMessage" ∧
    Catty.parseMessageText (some (.scalar Catty.JVal.null)) =
      Except.error "TypeError" ∧
    Catty.parseMessageText (some (.scalar v)) = Except.ok (.scalar v) ∧
    Catty.parseMessageText (some (.obj o)) =
      Except.ok (.obj (Catty.parseMessage o)) ∧
    Catty.parseMessage o = o := by
  refine ⟨rfl, rfl, ?_, rfl, ?_⟩
  · cases v with
    | str s => rfl
    | num n => rfl
    | jbool b => rfl
    | null => exact absurd rfl hv
  unfold Catty.parseMessage
  split
  · next t heq =>
    have hn := h t heq
    split_ifs with h1 h2 h3 h4 h5 h6 h7 h8 h9 h10
    all_goals try rfl
    all_goals subst_vars
    all_goals exact absurd (by decide) hn
  · rfl

/-- Witness for C8's amended theorem on the discriminator-free object
and a non-null scalar document. -/
theorem decode_failure_only_on_invalid_json_witness :
    Catty.parseMessageText (some (.scalar (Catty.JVal.num 1))) =
      Except.ok (.scalar (Catty.JVal.num 1)) ∧
    Catty.parseMessage [("foo", Catty.JVal.num 1)] =
      [("foo", Catty.JVal.num 1)] :=
  ⟨(decode_failure_only_on_invalid_json [("foo", Catty.JVal.num 1)]
      (Catty.JVal.num 1) (fun _ hs => Option.noConfusion hs)
      (by decide)).2.2.1,
   (decode_failure_only_on_invalid_json [("foo", Catty.JVal.num 1)]
      (Catty.JVal.num 1) (fun _ hs => Option.noConfusion hs)
      (by decide)).2.2.2.2⟩

/-- C10: Terminal.restore is one-shot: every call leaves cleanupDone
set; on an instance whose cleanupDone flag is already set, restore is
the identity; and after a first restore, calling makeRaw again re-enters
raw mode (on a TTY) but restore is thereafter a no-op on that instance,
so raw mode can never again be disabled through it. -/
theorem terminal_restore_one_shot (s : Catty.TermState) :
    (Catty.restore s).cleanupDone = true ∧
    (s.cleanupDone = true → Catty.restore s = s) ∧
    (s.cleanupDone = false → s.isTTY = true →
      (Catty.makeRaw (Catty.restore s)).rawMode = true ∧
      Catty.restore (Catty.makeRaw (Catty.restore s)) =
        Catty.makeRaw (Catty.restore s)) := by
  refine ⟨?_, ?_, ?_⟩
  · unfold Catty.restore
    split
    · next h => exact h
    · split <;> rfl
  · intro h
    unfold Catty.restore
    simp [h]
  · intro hcd htty
    have hres : Catty.restore s =
        if s.wasRaw ∧ s.isTTY then
          { s with rawMode := false, bracketedPaste := false,
                   cursorVisible := true, wasRaw := false,
                   cleanupDone := true }
        else { s with cleanupDone := true } := by
      unfold Catty.restore
      simp [hcd]
    by_cases hw : s.wasRaw
    · have : Catty.restore s =
          { s with rawMode := false, bracketedPaste := false,
                   cursorVisible := true, wasRaw := false,
                   cleanupDone := true } := by
        rw [hres]; simp [hw, htty]
      rw [this]
      constructor
      · simp [Catty.makeRaw, htty]
      · simp [Catty.makeRaw, htty, Catty.restore]
    · have : Catty.restore s = { s with cleanupDone := true } := by
        rw [hres]
        simp [hw]
      rw [this]
      constructor
      · simp [Catty.makeRaw, htty, hw]
      · simp [Catty.makeRaw, htty, hw, Catty.restore]

/-- Witness for C10's theorem at a concrete fresh terminal state. -/
theorem terminal_restore_one_shot_witness :
    (({ isTTY := true, wasRaw := true, cleanupDone := false,
        rawMode := true, bracketedPaste := true, cursorVisible := true,
        handlersRegistered := true } : Catty.TermState).cleanupDone = false) ∧
    (Catty.restore (Catty.makeRaw (Catty.restore
      { isTTY := true, wasRaw := true, cleanupDone := false,
        rawMode := true, bracketedPaste := true, cursorVisible := true,
        handlersRegistered := true })) =
      Catty.makeRaw (Catty.restore
      { isTTY := true, wasRaw := true, cleanupDone := false,
        rawMode := true, bracketedPaste := true, cursorVisible := true,
        handlersRegistered := true })) :=
  ⟨rfl,
    ((terminal_restore_one_shot _).2.2 rfl rfl).2⟩

namespace Catty

theorem demuxStep_forward (st : DemuxState) (m : List Char)
    (h : st.inPaste = false) (hm : findSub PASTE_START m = none) :
    demuxStep st m = (st, [OutEvent.send m]) := by
  unfold demuxStep
  rw [h, hm]
  simp

theorem demuxStep_start (buf pre m1 : List Char)
    (hfind : findSub PASTE_START (pre ++ PASTE_START ++ m1) =
      some pre.length)
    (hnoend : findSub PASTE_END m1 = none) :
    demuxStep { inPaste := false, pasteBuffer := buf }
        (pre ++ PASTE_START ++ m1) =
      ({ inPaste := true, pasteBuffer := m1 }, sendIfNonempty pre) := by
  have htake : (pre ++ PASTE_START ++ m1).take pre.length = pre := by
    rw [List.append_assoc]
    exact List.take_left pre (PASTE_START ++ m1)
  have hdrop : (pre ++ PASTE_START ++ m1).drop
      (pre.length + PASTE_START.length) = m1 := by
    rw [show pre.length + PASTE_START.length =
          (pre ++ PASTE_START).length from
        (List.length_append pre PASTE_START).symm]
    exact List.drop_left (pre ++ PASTE_START) m1
  unfold demuxStep
  rw [hfind]
  simp only [htake, hdrop, hnoend]
  simp

theorem demuxStep_buffering (buf m : List Char)
    (h : findSub PASTE_END m = none) :
    demuxStep { inPaste := true, pasteBuffer := buf } m =
      ({ inPaste := true, pasteBuffer := buf ++ m }, []) := by
  unfold demuxStep
  rw [h]
  simp

theorem demuxStep_finish (buf mlast post : List Char)
    (hfind : findSub PASTE_END (mlast ++ PASTE_END ++ post) =
      some mlast.length) :
    demuxStep { inPaste := true, pasteBuffer := buf }
        (mlast ++ PASTE_END ++ post) =
      ({ inPaste := false, pasteBuffer := [] },
       [OutEvent.paste (buf ++ mlast)] ++ sendIfNonempty post) := by
  have htake : (mlast ++ PASTE_END ++ post).take mlast.length = mlast := by
    rw [List.append_assoc]
    exact List.take_left mlast (PASTE_END ++ post)
  have hdrop : (mlast ++ PASTE_END ++ post).drop
      (mlast.length + PASTE_END.length) = post := by
    rw [show mlast.length + PASTE_END.length =
          (mlast ++ PASTE_END).length from
        (List.length_append mlast PASTE_END).symm]
    exact List.drop_left (mlast ++ PASTE_END) post
  unfold demuxStep
  rw [hfind]
  simp only [htake, hdrop]
  simp

theorem runStdin_buffering (ms : List (Int × List Char)) :
    ∀ (lc : Int) (buf : List Char),
    (∀ p ∈ ms, findSub PASTE_END p.2 = none ∧
      p.2.contains '\x03' = false) →
    runStdin { lastCtrlC := lc, demux := { inPaste := true, pasteBuffer := buf } } ms =
      ({ lastCtrlC := lc,
         demux := { inPaste := true,
                    pasteBuffer := buf ++ (ms.map Prod.snd).flatten } }, []) := by
  induction ms with
  | nil =>
    intro lc buf _
    simp [runStdin]
  | cons p rest ih =>
    intro lc buf h
    obtain ⟨now, m⟩ := p
    have hm := h (now, m) (by simp)
    have hrest : ∀ q ∈ rest, findSub PASTE_END q.2 = none ∧
        q.2.contains '\x03' = false := by
      intro q hq
      exact h q (by simp [hq])
    simp only [runStdin, handleStdinDataModel, hm.2, Bool.false_eq_true,
      if_false, demuxStep_buffering buf m hm.1]
    rw [ih lc (buf ++ m) hrest]
    simp [List.append_assoc]

theorem runStdin_append (xs ys : List (Int × List Char)) : ∀ st,
    runStdin st (xs ++ ys) =
      ((runStdin (runStdin st xs).1 ys).1,
       (runStdin st xs).2 ++ (runStdin (runStdin st xs).1 ys).2) := by
  induction xs with
  | nil =>
    intro st
    simp [runStdin]
  | cons x rest ih =>
    intro st
    obtain ⟨now, m⟩ := x
    simp only [List.cons_append, runStdin, List.append_eq]
    rw [ih]
    simp [List.append_assoc]

end Catty

/-- C4 counterexample: a three-chunk sequence with the start marker in
chunk 1 and the end marker in chunk 3, whose pasted bytes contain the
interrupt byte 0x03 in chunks 1 and 3 arriving 400 ms apart (inside
realistic paste-chunk spacing): the double-Ctrl+C branch of
handleStdinData fires on chunk 3 and resolves the session as
interrupted, so the paste handler never receives any payload and the
post-marker byte is never forwarded — refuting the claim as stated,
which quantifies over every such chunk sequence. -/
theorem paste_interrupt_counterexample :
    (Catty.runStdin Catty.stdinInit
        [(100000, "a".toList ++ Catty.PASTE_START ++ "X\x03".toList),
         (100100, "Y".toList),
         (100400, "\x03Z".toList ++ Catty.PASTE_END ++ "b".toList)]).2 =
      [Catty.OutEvent.send "a".toList,
       Catty.OutEvent.resolve Catty.ConnResult.interrupted] := by decide

/-- C4 amended: provided no chunk carries the interrupt byte 0x03
(otherwise the double-Ctrl+C path intercepts the chunk before the paste
scanner and can end the session, discarding the paste), a paste whose
start marker lies in the first chunk and whose end marker lies in the
last chunk of a multi-chunk sequence is handed to the paste handler as
exactly the concatenation of the bytes strictly between the markers,
while the bytes before the start marker and after the end marker are
forwarded to the transport unmodified and separately from the payload.
The middle chunks are arbitrary timestamped chunks free of the end
marker; the hypotheses state, via the handler's own indexOf, that the
first occurrence of each marker is at the stated position. -/
theorem paste_multichunk_reassembly
    (pre m1 mlast post : List Char) (midsIn : List (Int × List Char))
    (t1 tN : Int)
    (hpre : Catty.findSub Catty.PASTE_START
        (pre ++ Catty.PASTE_START ++ m1) = some pre.length)
    (hm1end : Catty.findSub Catty.PASTE_END m1 = none)
    (hm1c : (pre ++ Catty.PASTE_START ++ m1).contains '\x03' = false)
    (hmids : ∀ p ∈ midsIn, Catty.findSub Catty.PASTE_END p.2 = none ∧
        p.2.contains '\x03' = false)
    (hlast : Catty.findSub Catty.PASTE_END
        (mlast ++ Catty.PASTE_END ++ post) = some mlast.length)
    (hlastc : (mlast ++ Catty.PASTE_END ++ post).contains '\x03' = false) :
    (Catty.runStdin Catty.stdinInit
        ((t1, pre ++ Catty.PASTE_START ++ m1) ::
          (midsIn ++ [(tN, mlast ++ Catty.PASTE_END ++ post)]))).2 =
      Catty.sendIfNonempty pre ++
        [Catty.OutEvent.paste
          (m1 ++ (midsIn.map Prod.snd).flatten ++ mlast)] ++
        Catty.sendIfNonempty post := by
  have hstep1 : Catty.demuxStep Catty.stdinInit.demux
      (pre ++ Catty.PASTE_START ++ m1) =
      ({ inPaste := true, pasteBuffer := m1 },
       Catty.sendIfNonempty pre) :=
    Catty.demuxStep_start [] pre m1 hpre hm1end
  have hstepN : Catty.demuxStep
      { inPaste := true,
        pasteBuffer := m1 ++ (midsIn.map Prod.snd).flatten }
      (mlast ++ Catty.PASTE_END ++ post) =
      ({ inPaste := false, pasteBuffer := [] },
       [Catty.OutEvent.paste
         ((m1 ++ (midsIn.map Prod.snd).flatten) ++ mlast)] ++
        Catty.sendIfNonempty post) :=
    Catty.demuxStep_finish _ mlast post hlast
  simp only [Catty.runStdin, Catty.handleStdinDataModel, hm1c,
    Bool.false_eq_true, if_false, hstep1]
  rw [Catty.runStdin_append midsIn
    [(tN, mlast ++ Catty.PASTE_END ++ post)] _]
  rw [Catty.runStdin_buffering midsIn Catty.stdinInit.lastCtrlC m1 hmids]
  simp only [Catty.runStdin, Catty.handleStdinDataModel, hlastc,
    Bool.false_eq_true, if_false, hstepN]
  simp [List.append_assoc]

/-- Witness for C4 at a concrete four-chunk paste: "ab" before the
start marker, payload "XY" + "Z" + "W" spanning four chunks, "cd" after
the end marker. -/
theorem paste_multichunk_reassembly_witness :
    (Catty.runStdin Catty.stdinInit
        ((5000, "ab".toList ++ Catty.PASTE_START ++ "XY".toList) ::
          ([(5001, "Z".toList), (5002, "Q".toList)] ++
            [(5003, "W".toList ++ Catty.PASTE_END ++ "cd".toList)]))).2 =
      Catty.sendIfNonempty "ab".toList ++
        [Catty.OutEvent.paste
          ("XY".toList ++
            ([(5001, ("Z".toList : List Char)),
              (5002, "Q".toList)].map Prod.snd).flatten ++ "W".toList)] ++
        Catty.sendIfNonempty "cd".toList := by
  exact paste_multichunk_reassembly "ab".toList "XY".toList "W".toList
    "cd".toList [(5001, "Z".toList), (5002, "Q".toList)] 5000 5003
    (by decide) (by decide) (by decide) (by decide) (by decide) (by decide)

/-- C5: Two stdin chunks each containing the interrupt byte 0x03, fed
to the handler from its initial state: if the second arrives strictly
within DOUBLE_CTRLC_MS = 1000 ms of the first, the double-tap path
resolves the session as user-interrupted; if it arrives 1000 ms or
later (e.g. 2 s apart), the double-tap path is not taken and each chunk
is forwarded to the remote side.  (The first chunk is forwarded in both
scenarios; the chunks carry no paste markers, and the first timestamp
is at least the window length so the initial lastCtrlC = 0 cannot
register as a previous tap.) -/
theorem double_ctrlc_window (t1 t2 : Int) (b1 b2 : List Char)
    (h1c : b1.contains '\x03' = true) (h2c : b2.contains '\x03' = true)
    (h1p : Catty.findSub Catty.PASTE_START b1 = none)
    (h2p : Catty.findSub Catty.PASTE_START b2 = none)
    (ht1 : Catty.DOUBLE_CTRLC_MS ≤ t1) :
    (t2 - t1 < Catty.DOUBLE_CTRLC_MS →
      (Catty.runStdin Catty.stdinInit [(t1, b1), (t2, b2)]).2 =
        [Catty.OutEvent.send b1,
         Catty.OutEvent.resolve Catty.ConnResult.interrupted]) ∧
    (Catty.DOUBLE_CTRLC_MS ≤ t2 - t1 →
      (Catty.runStdin Catty.stdinInit [(t1, b1), (t2, b2)]).2 =
        [Catty.OutEvent.send b1, Catty.OutEvent.send b2]) := by
  have hnot1 : ¬(t1 - Catty.stdinInit.lastCtrlC < Catty.DOUBLE_CTRLC_MS) := by
    simp only [Catty.stdinInit]
    omega
  have hfwd1 : Catty.demuxStep Catty.stdinInit.demux b1 =
      (Catty.stdinInit.demux, [Catty.OutEvent.send b1]) :=
    Catty.demuxStep_forward Catty.stdinInit.demux b1 rfl h1p
  have hfwd2 : Catty.demuxStep Catty.stdinInit.demux b2 =
      (Catty.stdinInit.demux, [Catty.OutEvent.send b2]) :=
    Catty.demuxStep_forward Catty.stdinInit.demux b2 rfl h2p
  constructor
  · intro hwin
    simp only [Catty.runStdin, Catty.handleStdinDataModel, h1c, h2c,
      if_true, hnot1, if_false, hfwd1]
    simp [hwin]
  · intro hfar
    have hnot2 : ¬(t2 - t1 < Catty.DOUBLE_CTRLC_MS) := by omega
    simp only [Catty.runStdin, Catty.handleStdinDataModel, h1c, h2c,
      if_true, hnot1, if_false, hfwd1]
    simp [hnot2, hfwd2]

/-- Witness for C5: interrupt bytes 400 ms apart end the session;
2000 ms apart both are forwarded. -/
theorem double_ctrlc_window_witness :
    ((Catty.runStdin Catty.stdinInit
        [(100000, ['\x03']), (100400, ['\x03'])]).2 =
      [Catty.OutEvent.send ['\x03'],
       Catty.OutEvent.resolve Catty.ConnResult.interrupted]) ∧
    ((Catty.runStdin Catty.stdinInit
        [(100000, ['\x03']), (102000, ['\x03'])]).2 =
      [Catty.OutEvent.send ['\x03'], Catty.OutEvent.send ['\x03']]) :=
  ⟨(double_ctrlc_window 100000 100400 ['\x03'] ['\x03']
      (by decide) (by decide) (by decide) (by decide) (by decide)).1
      (by decide),
   (double_ctrlc_window 100000 102000 ['\x03'] ['\x03']
      (by decide) (by decide) (by decide) (by decide) (by decide)).2
      (by decide)⟩

/-- C2 counterexample: the file-change path "a/../b" contains a
parent-directory segment, yet applying it performs a filesystem
mutation — normalization resolves it to "b" inside the workspace and
the write goes through, creating /base/b. -/
theorem syncback_traversal_segment_counterexample :
    ((Catty.pathSegments "a/../b").contains ".." = true) ∧
    Catty.applyRemoteFileChange "/base" 0
        { action := Catty.FileAction.write, path := "a/../b",
          content := some "aGk=", mode := none } (fun _ => none)
        "/base/b" =
      some { content := [104, 105], mode := 420 } := by
  constructor
  · decide
  · decide

/-- C2 amended: a file-change message whose path, after dropping a
leading "./" and normalizing, is empty, ".", absolute, or begins with a
parent-directory segment is rejected with no filesystem mutation (in
particular every path starting with "/" and every path whose ".."
segments escape the workspace root); a path whose ".." segments
normalize away inside the workspace is applied normally. -/
theorem syncback_rejects_escaping_paths
    (cwd : String) (tNow : Nat) (msg : Catty.FileChange) (fs : Catty.FS)
    (h : Catty.pathNormalize (Catty.stripDotSlash msg.path) = "" ∨
         Catty.pathNormalize (Catty.stripDotSlash msg.path) = "." ∨
         Catty.isAbsolutePath
           (Catty.pathNormalize (Catty.stripDotSlash msg.path)) = true ∨
         Catty.pathNormalize (Catty.stripDotSlash msg.path) = ".." ∨
         Catty.strStartsWith (Catty.pathNormalize (Catty.stripDotSlash msg.path))
           (".." ++ Catty.pathSep) = true) :
    Catty.applyRemoteFileChange cwd tNow msg fs = fs := by
  unfold Catty.applyRemoteFileChange
  dsimp only
  split_ifs with h1 h2 h3 h4
  · rfl
  · rfl
  · rfl
  · rfl
  · exfalso
    rcases h with h | h | h | h | h
    · exact h1 (Or.inl h)
    · exact h1 (Or.inr h)
    · exact h2 h
    · exact h3 (Or.inl h)
    · exact h3 (Or.inr h)

/-- Witness for C2's amended theorem: an absolute path is a no-op. -/
theorem syncback_rejects_escaping_paths_witness :
    Catty.applyRemoteFileChange "/base" 0
        { action := Catty.FileAction.write, path := "/etc/passwd",
          content := some "aGk=", mode := none } (fun _ => none) =
      (fun _ => none) :=
  syncback_rejects_escaping_paths "/base" 0 _ _
    (Or.inr (Or.inr (Or.inl (by decide))))

/-- C3: the write branch runs mkdir, a write to the .catty-sync temp
file placed in the destination's own parent directory, then a rename of
that temp file onto the destination; after any prefix of the syscall
sequence (a crash point), the destination path holds exactly its prior
content, after the full sequence it holds exactly the new content, and
the temp file is gone — never a partial state. -/
theorem syncback_write_atomic
    (destPath : String) (content : List UInt8) (mode : Option Nat)
    (tNow : Nat) (fs : Catty.FS) (k : Nat) (hk : k ≤ 3)
    (hne : Catty.pathJoin (Catty.dirname destPath)
        (".catty-sync-" ++ toString tNow) ≠ destPath) :
    (k < 3 →
      ((Catty.writeOps destPath content mode tNow).take k).foldl
          Catty.applyOp fs destPath = fs destPath) ∧
    ((Catty.writeOps destPath content mode tNow).foldl Catty.applyOp fs
        destPath =
      some { content := content, mode := Catty.writeFileMode mode }) ∧
    ((Catty.writeOps destPath content mode tNow).foldl Catty.applyOp fs
        (Catty.pathJoin (Catty.dirname destPath)
          (".catty-sync-" ++ toString tNow)) = none) := by
  have hne' : destPath ≠ Catty.pathJoin (Catty.dirname destPath)
      (".catty-sync-" ++ toString tNow) := fun he => hne he.symm
  refine ⟨?_, ?_, ?_⟩
  · intro hklt
    interval_cases k
    · rfl
    · rfl
    · simp [Catty.writeOps, Catty.applyOp, hne']
  · simp [Catty.writeOps, Catty.applyOp]
  · simp [Catty.writeOps, Catty.applyOp, hne]

/-- Witness for C3 at a concrete crash point: after mkdir and the
temp-file write but before the rename, the destination is still
absent. -/
theorem syncback_write_atomic_witness :
    (Catty.pathJoin (Catty.dirname "/base/d/f.txt")
        (".catty-sync-" ++ toString 7) ≠ "/base/d/f.txt") ∧
    ((Catty.writeOps "/base/d/f.txt" [104] none 7).take 2).foldl
        Catty.applyOp (fun _ => none) "/base/d/f.txt" =
      (fun _ => (none : Option Catty.FileData)) "/base/d/f.txt" :=
  ⟨by decide,
   (syncback_write_atomic "/base/d/f.txt" [104] none 7 (fun _ => none) 2
      (by decide) (by decide)).1 (by decide)⟩

namespace Catty

theorem b64encode_length : ∀ l : List UInt8,
    (b64encode l).length = (l.length + 2) / 3 * 4
  | [] => rfl
  | [_] => by simp [b64encode]
  | [_, _] => by simp [b64encode]
  | _ :: _ :: _ :: rest => by
    simp only [b64encode, List.length_cons]
    rw [b64encode_length rest]
    omega

theorem natCeilDiv_le_mul (L n : Nat) (hn : 0 < n) :
    L ≤ n * natCeilDiv L n := by
  unfold natCeilDiv
  have h1 := Nat.div_add_mod (L + n - 1) n
  have h2 := Nat.mod_lt (L + n - 1) hn
  generalize hq : n * ((L + n - 1) / n) = nq at h1 ⊢
  omega

theorem prelast_lt (L m : Nat) (hsq : m * m < L) :
    m * natCeilDiv L (m + 1) < L := by
  have heq : natCeilDiv L (m + 1) = (L + m) / (m + 1) := by
    unfold natCeilDiv
    congr 1
  rw [heq]
  have hq : (L + m) / (m + 1) * (m + 1) ≤ L + m :=
    Nat.div_mul_le_self (L + m) (m + 1)
  have hmain : (m + 1) * (m * ((L + m) / (m + 1))) < (m + 1) * L := by
    calc (m + 1) * (m * ((L + m) / (m + 1)))
        = m * ((L + m) / (m + 1) * (m + 1)) := by ring
      _ ≤ m * (L + m) := Nat.mul_le_mul_left m hq
      _ = m * L + m * m := by ring
      _ < m * L + L := Nat.add_lt_add_left hsq _
      _ = (m + 1) * L := by ring
  exact Nat.lt_of_mul_lt_mul_left hmain

theorem total_prelast_lt (L total cs : Nat)
    (hL1 : 13656 ≤ L) (hL2 : L ≤ 13981016)
    (htot : total = natCeilDiv (L * 100) (CHUNK_SIZE * 134))
    (hcs : cs = natCeilDiv L total) :
    (total - 1) * cs < L := by
  subst htot
  subst hcs
  have hden : CHUNK_SIZE * 134 = 1372160 := rfl
  rw [hden]
  have hn1 : 1 ≤ natCeilDiv (L * 100) 1372160 := by
    unfold natCeilDiv
    omega
  have hA : (natCeilDiv (L * 100) 1372160 - 1) * 1372160 ≤ L * 100 := by
    have h1 : natCeilDiv (L * 100) 1372160 ≤ L * 100 / 1372160 + 1 := by
      unfold natCeilDiv
      omega
    have h2 : L * 100 / 1372160 * 1372160 ≤ L * 100 :=
      Nat.div_mul_le_self _ _
    have h3 : natCeilDiv (L * 100) 1372160 - 1 ≤ L * 100 / 1372160 := by
      omega
    calc (natCeilDiv (L * 100) 1372160 - 1) * 1372160
        ≤ L * 100 / 1372160 * 1372160 := Nat.mul_le_mul_right _ h3
      _ ≤ L * 100 := h2
  have hq : natCeilDiv (L * 100) 1372160 - 1 ≤ 1018 := by omega
  have hsq : (natCeilDiv (L * 100) 1372160 - 1) *
      (natCeilDiv (L * 100) 1372160 - 1) < L := by
    have hmm : (natCeilDiv (L * 100) 1372160 - 1) *
        (natCeilDiv (L * 100) 1372160 - 1) ≤
        (natCeilDiv (L * 100) 1372160 - 1) * 1018 :=
      Nat.mul_le_mul_left _ hq
    generalize hv : (natCeilDiv (L * 100) 1372160 - 1) *
      (natCeilDiv (L * 100) 1372160 - 1) = mm at hmm ⊢
    omega
  have hform : natCeilDiv (L * 100) 1372160 =
      (natCeilDiv (L * 100) 1372160 - 1) + 1 := by omega
  have hcd : natCeilDiv L (natCeilDiv (L * 100) 1372160) =
      natCeilDiv L ((natCeilDiv (L * 100) 1372160 - 1) + 1) := by
    rw [← hform]
  rw [hcd, hform]
  simpa using prelast_lt L (natCeilDiv (L * 100) 1372160 - 1) hsq

theorem sliceTakeEq (s : List Char) (a c : Nat) :
    (s.drop a).take (min (a + c) s.length - a) = (s.drop a).take c := by
  rcases Nat.le_total (a + c) s.length with h | h
  · rw [Nat.min_eq_left h]
    congr 1
    omega
  · rw [Nat.min_eq_right h]
    rcases Nat.le_total a s.length with ha | ha
    · rw [List.take_of_length_le (by rw [List.length_drop]),
        List.take_of_length_le (by rw [List.length_drop]; omega)]
    · rw [List.drop_eq_nil_of_le ha]
      simp

theorem flatten_chunks (s : List Char) (cs : Nat) (n : Nat) :
    ((List.range n).map (fun i => (s.drop (i * cs)).take cs)).flatten =
      s.take (n * cs) := by
  induction n with
  | zero => simp
  | succ k ih =>
    rw [List.range_succ, List.map_append, List.flatten_append]
    simp only [List.map_cons, List.map_nil, List.flatten_cons,
      List.flatten_nil, List.append_nil]
    rw [ih, ← List.take_add]
    congr 1
    ring

end Catty

/-- C9 counterexample: a 7683-byte file (raw size below the 10240-byte
CHUNK_SIZE) has a base64-encoded size of 10244, which is not below the
threshold — the claim then demands a chunked upload, yet the code sends
exactly one file_upload message, because the branch tests the raw byte
size, not the encoded size. -/
theorem upload_threshold_counterexample :
    ((Catty.b64encode (List.replicate 7683 (0 : UInt8))).length = 10244 ∧
      Catty.CHUNK_SIZE < 10244) ∧
    (Catty.uploadFile "u" 0
        { shouldUpload := true, localPath := some "/p/a.png",
          remotePath := some "/workspace/.catty-uploads/a.png",
          content := some (List.replicate 7683 (0 : UInt8)),
          filename := some "a.png", mimeType := some "image/png" }).1 =
      [Catty.createFileUploadMessage
        (Catty.generateUniqueFilename "a.png" 0)
        ("/workspace/.catty-uploads/" ++
          Catty.generateUniqueFilename "a.png" 0)
        (List.replicate 7683 (0 : UInt8)) "image/png"] := by
  refine ⟨⟨?_, by decide⟩, ?_⟩
  · rw [Catty.b64encode_length, List.length_replicate]
  · dsimp only [Catty.uploadFile]
    rw [if_neg (by decide),
      if_neg (by rw [List.length_replicate]; decide)]

/-- C9 amended: the branch threshold is the raw byte size: a file of at
most CHUNK_SIZE raw bytes is sent as exactly one file_upload message;
a larger file's base64-encoded content is split into
ceil(encodedLength / (CHUNK_SIZE * 1.34)) slices sent as
file_upload_chunk messages strictly in index order 0..total-1, all
carrying the same upload id and total count, every slice but the last
of exactly ceil(encodedLength / total) characters and the last shorter
or equal but never empty, such that concatenating the slices in index
order is exactly the full base64-encoded content. -/
theorem upload_chunking
    (uploadId : String) (now : Nat) (filePath : String)
    (content : List UInt8) (filename remotePath mime : String)
    (info : Catty.FileUploadResult)
    (hinfo : info = ⟨true, some filePath, some remotePath, some content,
      some filename, some mime⟩)
    (hfn : ¬filename = "") (hrp : ¬remotePath = "") (hmime : ¬mime = "")
    (hsize : content.length ≤ Catty.MAX_FILE_SIZE)
    (total cs : Nat)
    (htot : total = Catty.natCeilDiv
      ((Catty.b64encode content).length * 100) (Catty.CHUNK_SIZE * 134))
    (hcs : cs = Catty.natCeilDiv (Catty.b64encode content).length total) :
    (content.length ≤ Catty.CHUNK_SIZE →
      (Catty.uploadFile uploadId now info).1 =
        [Catty.createFileUploadMessage
          (Catty.generateUniqueFilename filename now)
          ("/workspace/.catty-uploads/" ++
            Catty.generateUniqueFilename filename now) content mime]) ∧
    (Catty.CHUNK_SIZE < content.length →
      ((Catty.uploadFile uploadId now info).1 =
        (List.range total).map (fun i =>
          Catty.createFileUploadChunkMessage uploadId
            (Catty.generateUniqueFilename filename now)
            ("/workspace/.catty-uploads/" ++
              Catty.generateUniqueFilename filename now) i total
            (((Catty.b64encode content).drop (i * cs)).take
              (min (i * cs + cs) (Catty.b64encode content).length -
                i * cs)) mime)) ∧
      ((List.range total).map (fun i =>
          ((Catty.b64encode content).drop (i * cs)).take
            (min (i * cs + cs) (Catty.b64encode content).length -
              i * cs))).flatten =
        Catty.b64encode content ∧
      (∀ i, i + 1 < total →
        (((Catty.b64encode content).drop (i * cs)).take
          (min (i * cs + cs) (Catty.b64encode content).length -
            i * cs)).length = cs) ∧
      0 < (((Catty.b64encode content).drop ((total - 1) * cs)).take
          (min ((total - 1) * cs + cs) (Catty.b64encode content).length -
            (total - 1) * cs)).length ∧
      (((Catty.b64encode content).drop ((total - 1) * cs)).take
          (min ((total - 1) * cs + cs) (Catty.b64encode content).length -
            (total - 1) * cs)).length ≤ cs) := by
  subst hinfo
  have hcsz : Catty.CHUNK_SIZE = 10240 := rfl
  have hmax : Catty.MAX_FILE_SIZE = 10485760 := rfl
  have hguard : ¬(filename = "" ∨ remotePath = "" ∨ mime = "") := by
    tauto
  constructor
  · intro hsmall
    have hcond : ¬(Catty.CHUNK_SIZE < content.length) := by omega
    dsimp only [Catty.uploadFile]
    rw [if_neg hguard, if_neg hcond]
  · intro hbig
    have hL1 : 13656 ≤ (Catty.b64encode content).length := by
      rw [Catty.b64encode_length]
      omega
    have hL2 : (Catty.b64encode content).length ≤ 13981016 := by
      rw [Catty.b64encode_length]
      omega
    have htotpos : 0 < total := by
      rw [htot]
      show 0 < Catty.natCeilDiv ((Catty.b64encode content).length * 100)
        1372160
      unfold Catty.natCeilDiv
      omega
    have hcov : (Catty.b64encode content).length ≤ total * cs := by
      rw [hcs]
      exact Catty.natCeilDiv_le_mul _ total htotpos
    have hpre : (total - 1) * cs < (Catty.b64encode content).length :=
      Catty.total_prelast_lt _ total cs hL1 hL2 htot hcs
    have hexp : total * cs = (total - 1) * cs + cs := by
      have ht1 : total - 1 + 1 = total := by omega
      calc total * cs = (total - 1 + 1) * cs := by rw [ht1]
        _ = (total - 1) * cs + cs := by ring
    refine ⟨?_, ?_, ?_, ?_⟩
    · dsimp only [Catty.uploadFile]
      rw [if_neg hguard, if_pos hbig, ← htot, ← hcs]
    · rw [List.map_congr_left
        (fun i _ => Catty.sliceTakeEq (Catty.b64encode content) (i * cs) cs)]
      rw [Catty.flatten_chunks]
      exact List.take_of_length_le hcov
    · intro i hi
      have h1 : (i + 1) * cs ≤ (total - 1) * cs :=
        Nat.mul_le_mul_right cs (by omega)
      have h2 : i * cs + cs ≤ (Catty.b64encode content).length := by
        have he : i * cs + cs = (i + 1) * cs := by ring
        rw [he]
        exact le_of_lt (lt_of_le_of_lt h1 hpre)
      rw [Catty.sliceTakeEq, List.length_take, List.length_drop]
      generalize hI : i * cs = I at h2 ⊢
      omega
    · constructor
      · rw [Catty.sliceTakeEq, List.length_take, List.length_drop]
        generalize hB : total * cs = B at hcov hexp
        generalize hA : (total - 1) * cs = A at hpre hexp ⊢
        omega
      · rw [Catty.sliceTakeEq, List.length_take, List.length_drop]
        generalize hB : total * cs = B at hcov hexp
        generalize hA : (total - 1) * cs = A at hpre hexp ⊢
        omega
/-- Witness for C9's amended theorem: a 5-byte file goes out as exactly
one file_upload message. -/
theorem upload_chunking_witness :
    (List.replicate 5 (7 : UInt8)).length ≤ Catty.CHUNK_SIZE ∧
    (Catty.uploadFile "u" 3
        { shouldUpload := true, localPath := some "/p/a.png",
          remotePath := some "/workspace/.catty-uploads/a.png",
          content := some (List.replicate 5 (7 : UInt8)),
          filename := some "a.png", mimeType := some "image/png" }).1 =
      [Catty.createFileUploadMessage
        (Catty.generateUniqueFilename "a.png" 3)
        ("/workspace/.catty-uploads/" ++
          Catty.generateUniqueFilename "a.png" 3)
        (List.replicate 5 (7 : UInt8)) "image/png"] :=
  ⟨by decide,
   (upload_chunking "u" 3 "/p/a.png" (List.replicate 5 (7 : UInt8))
      "a.png" "/workspace/.catty-uploads/a.png" "image/png" _ rfl
      (by decide) (by decide) (by decide) (by decide) _ _ rfl
      rfl).1 (by decide)⟩
